import Mathlib

/-!
Shallow embedding of the event-parsing and calendar-assembly core of
`src/scraper.py` (class `StravaEventScraper`), together with theorems
settling the specification claims about it.

Conventions of the embedding:
* Python `datetime` values are modelled at minute granularity.  A naive
  local timestamp is a `NaiveDT` (proleptic-Gregorian calendar fields plus
  minutes since midnight); an aware timestamp is an `AwareDT` carrying its
  wall-clock minutes (counted from the rata-die epoch), its UTC offset in
  minutes and its timezone name, mirroring how `pytz` attaches a fixed
  offset to a localized datetime.  Aware comparison and subtraction act on
  the UTC instant (`wall - offset`), exactly as in Python; adding a
  `timedelta` to an aware datetime shifts the wall clock and keeps the
  offset, which is `pytz`'s (normalize-free) arithmetic used by the code.
* `datetime.now()` / `datetime.now(tz)` readings are passed to the
  embedded functions as explicit arguments, so that the wall-clock
  dependency of the source becomes a visible input of the model.
* The regular-expression match of `parse_event_details` and the
  `strptime` calls are embedded as character-list functions that follow
  the semantics of the concrete patterns used by the source
  (`re.match(r'(\w+)\s+(\d{1,2}:\d{2})\s+(AM|PM)\s*/\s*(.+)', ...)`,
  `strptime(..., "%d %b %Y")` and `strptime(..., "%I:%M %p")`).
-/

namespace StravaScraper

/-! ## Calendar arithmetic (proleptic Gregorian, as used by `datetime`) -/

def isLeap (y : Nat) : Bool :=
  (y % 4 == 0 && y % 100 != 0) || y % 400 == 0

def daysInMonth (y m : Nat) : Nat :=
  match m with
  | 1 => 31
  | 2 => if isLeap y then 29 else 28
  | 3 => 31
  | 4 => 30
  | 5 => 31
  | 6 => 30
  | 7 => 31
  | 8 => 31
  | 9 => 30
  | 10 => 31
  | 11 => 30
  | 12 => 31
  | _ => 0

/-- Days in year `y` strictly before month `m`, for a common year. -/
def daysBeforeMonthCommon (m : Nat) : Nat :=
  match m with
  | 1 => 0
  | 2 => 31
  | 3 => 59
  | 4 => 90
  | 5 => 120
  | 6 => 151
  | 7 => 181
  | 8 => 212
  | 9 => 243
  | 10 => 273
  | 11 => 304
  | 12 => 334
  | _ => 0

def daysBeforeMonth (y m : Nat) : Nat :=
  daysBeforeMonthCommon m + (if 2 < m ∧ isLeap y then 1 else 0)

/-- Rata-die day number of `y-m-d` (day 1 is 0001-01-01, a Monday). -/
def rataDie (y m d : Nat) : Nat :=
  365 * (y - 1) + (y - 1) / 4 + (y - 1) / 400 + daysBeforeMonth y m + d - (y - 1) / 100

/-- A naive `datetime` at minute granularity: calendar date plus minutes
since midnight.  Corresponds to the naive values `datetime.now()`,
`datetime.strptime(...)` and `datetime.combine(...)` in the source. -/
structure NaiveDT where
  year : Nat
  month : Nat
  day : Nat
  minute : Nat
deriving DecidableEq, Repr

/-- Total minutes of a naive timestamp from the rata-die epoch. -/
def naiveMinutes (n : NaiveDT) : Int :=
  (rataDie n.year n.month n.day : Int) * 1440 + n.minute

/-- An aware `datetime` in the `pytz` style: wall-clock minutes, the fixed
UTC offset (in minutes) attached at localization time, and the timezone
name. -/
structure AwareDT where
  wallMin : Int
  offMin : Int
  tz : String
deriving DecidableEq, Repr

/-- The UTC instant of an aware datetime; Python compares and subtracts
aware datetimes by this value. -/
def instantMin (a : AwareDT) : Int :=
  a.wallMin - a.offMin

/-- `aware + timedelta(minutes=k)`: shifts the wall clock, keeps the
offset object, exactly like `pytz` datetime arithmetic in the source. -/
def awareAddMin (a : AwareDT) (k : Int) : AwareDT :=
  { a with wallMin := a.wallMin + k }

/-- Aware `<=` comparison (UTC instants). -/
def awareLE (a b : AwareDT) : Bool :=
  instantMin a ≤ instantMin b

/-! ## `pytz.timezone('America/Los_Angeles')` at minute granularity

US Pacific time for modern dates: PDT (UTC-7) from 2:00 on the second
Sunday of March to 2:00 on the first Sunday of November, else PST (UTC-8).
`tz.localize(naive)` with the default `is_dst=False` resolves ambiguous
and non-existent wall times to standard time, which is what the embedded
offset function below does. -/

/-- Day of week of a date; `0` is Sunday. -/
def dowSunday (y m d : Nat) : Nat :=
  rataDie y m d % 7

def secondSundayOfMarch (y : Nat) : Nat :=
  8 + (7 - dowSunday y 3 8) % 7

def firstSundayOfNovember (y : Nat) : Nat :=
  1 + (7 - dowSunday y 11 1) % 7

/-- Lexicographic key on (month, day, minute-of-day). -/
def mdKey (m d minute : Nat) : Nat :=
  (m * 32 + d) * 1440 + minute

def inPacificDST (n : NaiveDT) : Bool :=
  if mdKey 3 (secondSundayOfMarch n.year) 180 ≤ mdKey n.month n.day n.minute ∧
      mdKey n.month n.day n.minute < mdKey 11 (firstSundayOfNovember n.year) 60
  then true else false

def pacificOffsetMin (n : NaiveDT) : Int :=
  if inPacificDST n then -420 else -480

/-- `self.pacific_tz.localize(naive_datetime)` from the source. -/
def pacific_localize (n : NaiveDT) : AwareDT :=
  ⟨naiveMinutes n, pacificOffsetMin n, "America/Los_Angeles"⟩

/-! ## The title pattern

`re.match(r'(\w+)\s+(\d{1,2}:\d{2})\s+(AM|PM)\s*/\s*(.+)', title_text)`.
Because the character classes of consecutive pattern pieces are disjoint,
the match is equivalent to the deterministic staged scan below; the one
place where the regex engine's backtracking is observable (`\s*(.+)` when
everything after the slash is whitespace) is reproduced in `matchName`. -/

def isWordChar (c : Char) : Bool :=
  c.isAlphanum || c == '_'

def isSpaceChar (c : Char) : Bool :=
  c == ' ' || c == '\t' || c == '\n' || c == '\r' || c == '\x0b' || c == '\x0c'

/-- Captured groups of the title pattern.  The third group, `AM` or `PM`,
is stored as the flag `isPM`. -/
structure TitleGroups where
  dayName : List Char
  hourDigits : List Char
  minuteDigits : List Char
  isPM : Bool
  rawName : List Char
deriving DecidableEq, Repr

/-- `\s+`: require at least one whitespace character, consume the run. -/
def dropWs1 (s : List Char) : Option (List Char) :=
  match s with
  | c :: rest => if isSpaceChar c then some (rest.dropWhile isSpaceChar) else none
  | [] => none

/-- `(\d{1,2}:\d{2})` at the head of `s`; returns hour digits, minute
digits and the rest of the input. -/
def splitTimeDigits (s : List Char) : Option (List Char × List Char × List Char) :=
  match s with
  | c1 :: rest1 =>
    if c1.isDigit then
      match rest1 with
      | ':' :: m1 :: m2 :: rest2 =>
        if m1.isDigit && m2.isDigit then some ([c1], [m1, m2], rest2) else none
      | c2 :: ':' :: m1 :: m2 :: rest2 =>
        if c2.isDigit && m1.isDigit && m2.isDigit then
          some ([c1, c2], [m1, m2], rest2) else none
      | _ => none
    else none
  | [] => none

/-- `\s*/\s*(.+)` after the AM/PM token: skip whitespace, require the
slash, then capture the (greedy, newline-bounded) name group, including
the backtracking case where only trailing whitespace is left to match. -/
def matchName (r : List Char) : Option (List Char) :=
  match r.dropWhile isSpaceChar with
  | c :: r7 =>
    if c = '/' then
      let w := r7.takeWhile isSpaceChar
      let rest := r7.dropWhile isSpaceChar
      let n := rest.takeWhile (fun x => x ≠ '\n')
      if n.isEmpty then
        let t := (w.reverse.takeWhile (fun x => x ≠ '\n')).reverse
        if t.isEmpty then none else some t
      else some n
    else none
  | [] => none

/-- The stages of the title pattern after the leading `(\w+)` group. -/
def matchAfterDay (r1 : List Char) (day : List Char) : Option TitleGroups :=
  match dropWs1 r1 with
  | none => none
  | some r2 =>
    match splitTimeDigits r2 with
    | none => none
    | some (hd, md, r3) =>
      match dropWs1 r3 with
      | none => none
      | some r4 =>
        match r4 with
        | c1 :: c2 :: r5 =>
          if c1 = 'A' ∧ c2 = 'M' then
            (matchName r5).map (fun nm => ⟨day, hd, md, false, nm⟩)
          else if c1 = 'P' ∧ c2 = 'M' then
            (matchName r5).map (fun nm => ⟨day, hd, md, true, nm⟩)
          else none
        | _ => none

/-- The full anchored title match: the leading `(\w+)` group must be
nonempty, and the rest of the pattern consumes the remainder. -/
def matchTitle (s : List Char) : Option TitleGroups :=
  if (s.takeWhile isWordChar).isEmpty then none
  else matchAfterDay (s.dropWhile isWordChar) (s.takeWhile isWordChar)

/-! ## `strptime` -/

def digitsToNat (l : List Char) : Nat :=
  l.foldl (fun a c => a * 10 + (c.toNat - '0'.toNat)) 0

/-- `%b`: abbreviated month name, case-insensitive. -/
def monthOfAbbrev (c1 c2 c3 : Char) : Option Nat :=
  let l := [c1.toLower, c2.toLower, c3.toLower]
  if l = ['j', 'a', 'n'] then some 1
  else if l = ['f', 'e', 'b'] then some 2
  else if l = ['m', 'a', 'r'] then some 3
  else if l = ['a', 'p', 'r'] then some 4
  else if l = ['m', 'a', 'y'] then some 5
  else if l = ['j', 'u', 'n'] then some 6
  else if l = ['j', 'u', 'l'] then some 7
  else if l = ['a', 'u', 'g'] then some 8
  else if l = ['s', 'e', 'p'] then some 9
  else if l = ['o', 'c', 't'] then some 10
  else if l = ['n', 'o', 'v'] then some 11
  else if l = ['d', 'e', 'c'] then some 12
  else none

/-- The ` %b %Y` tail of the date format: `\s+`, a month abbreviation,
`\s+`, exactly four digits, end of input. -/
def matchMonthYear (s : List Char) : Option (Nat × Nat) :=
  match dropWs1 s with
  | none => none
  | some r =>
    match r with
    | c1 :: c2 :: c3 :: r2 =>
      match monthOfAbbrev c1 c2 c3 with
      | none => none
      | some mo =>
        match dropWs1 r2 with
        | none => none
        | some r3 =>
          match r3 with
          | [y1, y2, y3, y4] =>
            if y1.isDigit && y2.isDigit && y3.isDigit && y4.isDigit then
              some (mo, digitsToNat [y1, y2, y3, y4])
            else none
          | _ => none
    | _ => none

/-- The two-digit branches `3[01]|[12]\d|0[1-9]` of the `%d` pattern. -/
def matchDay2 (s : List Char) : Option (Nat × List Char) :=
  match s with
  | c1 :: c2 :: r =>
    if (c1 = '3' ∧ (c2 = '0' ∨ c2 = '1'))
        ∨ ((c1 = '1' ∨ c1 = '2') ∧ c2.isDigit)
        ∨ (c1 = '0' ∧ c2.isDigit ∧ c2 ≠ '0')
    then some (digitsToNat [c1, c2], r) else none
  | _ => none

/-- The one-digit branch `[1-9]` of the `%d` pattern. -/
def matchDay1 (s : List Char) : Option (Nat × List Char) :=
  match s with
  | c :: r => if c.isDigit ∧ c ≠ '0' then some (digitsToNat [c], r) else none
  | _ => none

/-- A parsed calendar date. -/
structure DateYMD where
  year : Nat
  month : Nat
  day : Nat
deriving DecidableEq, Repr

/-- `datetime.strptime(s, "%d %b %Y")`: the two-digit day alternatives are
tried before the one-digit one (with backtracking into the rest of the
pattern), and the resulting fields must form a constructible `datetime`. -/
def strptime_d_b_Y (s : List Char) : Option DateYMD :=
  let viaTwo :=
    match matchDay2 s with
    | some (d, r) => (matchMonthYear r).map (fun p => (d, p))
    | none => none
  let raw :=
    match viaTwo with
    | some v => some v
    | none =>
      match matchDay1 s with
      | some (d, r) => (matchMonthYear r).map (fun p => (d, p))
      | none => none
  match raw with
  | none => none
  | some (d, mo, y) =>
    if 1 ≤ y ∧ 1 ≤ d ∧ d ≤ daysInMonth y mo then some ⟨y, mo, d⟩ else none

/-- `datetime.strptime(f"{time_str} {am_pm}", "%I:%M %p").time()` applied
to the groups captured by the title pattern: `%I` accepts hour values 1
through 12, `%M` minute values 0 through 59, and `%p` converts to the
24-hour clock.  Returns minutes since midnight. -/
def strptimeTime (hourDigits minuteDigits : List Char) (isPM : Bool) : Option Nat :=
  let h := digitsToNat hourDigits
  let m := digitsToNat minuteDigits
  if 1 ≤ h ∧ h ≤ 12 ∧ m ≤ 59 then
    let h24 := if isPM then (if h = 12 then 12 else h + 12) else (if h = 12 then 0 else h)
    some (h24 * 60 + m)
  else none

/-! ## `parse_event_details` -/

/-- The f-string `f"{date_text} {month_text} {year}"` as a character list. -/
def composeDateInput (dateText monthText : String) (year : Nat) : List Char :=
  dateText.data ++ ' ' :: (monthText.data ++ ' ' :: (toString year).data)

/-- Lines 172-182 of the source: parse the date with the current year; on
failure return `None`; if the result lies more than 60 days before `now`,
re-parse with next year instead (a failure of that parse is caught by the
same `except` and also yields `None`). -/
def resolveEventDate (dateText monthText : String) (now : NaiveDT) : Option DateYMD :=
  match strptime_d_b_Y (composeDateInput dateText monthText now.year) with
  | none => none
  | some d =>
    if naiveMinutes ⟨d.year, d.month, d.day, 0⟩ < naiveMinutes now - 60 * 1440 then
      strptime_d_b_Y (composeDateInput dateText monthText (now.year + 1))
    else some d

/-- Python `str.strip()` on the captured name group. -/
def stripChars (l : List Char) : List Char :=
  ((l.dropWhile isSpaceChar).reverse.dropWhile isSpaceChar).reverse

/-- The record returned by a successful `parse_event_details`. -/
structure ParsedEvent where
  name : String
  datetime : AwareDT
  url : String
  original_time : AwareDT
deriving DecidableEq, Repr

/-- `parse_event_details(title_text, date_text, month_text, event_url)`,
lines 161-207 of the source.  The wall-clock readings `datetime.now()`
performed inside the function are modelled by the explicit argument
`now`. -/
def parse_event_details (title_text date_text month_text event_url : String)
    (now : NaiveDT) : Option ParsedEvent :=
  match matchTitle title_text.data with
  | none => none
  | some g =>
    match resolveEventDate date_text month_text now with
    | none => none
    | some d =>
      match strptimeTime g.hourDigits g.minuteDigits g.isPM with
      | none => none
      | some minuteOfDay =>
        let event_datetime := pacific_localize ⟨d.year, d.month, d.day, minuteOfDay⟩
        let calendar_datetime := awareAddMin event_datetime (-30)
        some ⟨String.mk (stripChars g.rawName), calendar_datetime, event_url, event_datetime⟩

/-! ## The per-club scraping loop (pure part) -/

/-- One raw scraped row: the inputs handed to `parse_event_details`. -/
structure RawEventTuple where
  title_text : String
  date_text : String
  month_text : String
  url : String
deriving DecidableEq, Repr

/-- The accumulation loop of `scrape_club_events` (lines 124-152): each
row is parsed independently; rows whose parse fails are skipped and the
loop continues with the next row. -/
def scrape_club_events (rows : List RawEventTuple) (now : NaiveDT) : List ParsedEvent :=
  rows.filterMap (fun r =>
    parse_event_details r.title_text r.date_text r.month_text r.url now)

/-! ## `filter_events_by_date_range` -/

/-- Lines 209-217 of the source: keep the events with
`now <= event['datetime'] <= now + timedelta(weeks=4)`; the wall-clock
reading `datetime.now(self.pacific_tz)` is the explicit argument `now`. -/
def filter_events_by_date_range (events : List ParsedEvent) (now : AwareDT) :
    List ParsedEvent :=
  let four_weeks_later := awareAddMin now (4 * 7 * 24 * 60)
  events.filter (fun e => awareLE now e.datetime && awareLE e.datetime four_weeks_later)

/-! ## `generate_ics_calendar` -/

structure IcsEvent where
  summary : String
  dtstart : AwareDT
  dtend : AwareDT
  description : String
  url : String
  uid : String
  dtstamp : Int
deriving DecidableEq, Repr

structure IcsCalendar where
  prodid : String
  version : String
  calscale : String
  icsMethod : String
  calName : String
  tzHint : String
  events : List IcsEvent
deriving DecidableEq, Repr

/-- `event_data['url'].split('/')[-1]`: the substring after the final
slash (the whole string when it contains no slash). -/
def lastPathSegment (url : String) : String :=
  String.mk ((url.data.reverse.takeWhile (fun c => c ≠ '/')).reverse)

def pad2 (n : Nat) : String :=
  if n < 10 then "0" ++ toString n else toString n

/-- `strftime('%I:%M %p')` on the wall clock of an aware datetime. -/
def strftime_IMp (a : AwareDT) : String :=
  let tot := (a.wallMin % 1440).toNat
  let h24 := tot / 60
  let mi := tot % 60
  let h12 := if h24 % 12 = 0 then 12 else h24 % 12
  pad2 h12 ++ ":" ++ pad2 mi ++ " " ++ (if h24 < 12 then "AM" else "PM")

/-- The `Event()` built for one parsed event in the loop of
`generate_ics_calendar` (lines 237-247); `stamp` is the
`datetime.now(pytz.UTC)` reading, in minutes. -/
def icsEntryOf (e : ParsedEvent) (stamp : Int) : IcsEvent :=
  { summary := e.name
    dtstart := e.datetime
    dtend := awareAddMin e.datetime 30
    description := "Strava Event: " ++ e.url ++ "\nRide starts at: " ++
      strftime_IMp e.original_time
    url := e.url
    uid := lastPathSegment e.url ++ "@strava-scraper"
    dtstamp := stamp }

/-- `generate_ics_calendar` (lines 229-255): the document metadata added
to `cal` and one component per event. -/
def generate_ics_calendar (events : List ParsedEvent) (stamp : Int) : IcsCalendar :=
  { prodid := "-//Strava Club Events//mxm.dk//"
    version := "2.0"
    calscale := "GREGORIAN"
    icsMethod := "PUBLISH"
    calName := "Strava Club Events"
    tzHint := "America/Los_Angeles"
    events := events.map (fun e => icsEntryOf e stamp) }

/-! ## Helper lemmas and sample values -/

theorem mk_data (l : List Char) : (String.mk l).data = l := rfl

/-- The event obtained by parsing the spec's worked example
(`"Tue 6:30 AM / Group Ride"`, `"15"`, `"Jun"`, reference time Jun 1,
2025). -/
def sampleParsedEvent : ParsedEvent :=
  ⟨"Group Ride", ⟨1064760840, -420, "America/Los_Angeles"⟩,
    "https://www.strava.com/clubs/1/group_events/12345",
    ⟨1064760870, -420, "America/Los_Angeles"⟩⟩

/-- Two distinct events whose URLs share the last path segment `555`. -/
def collisionEventA : ParsedEvent :=
  ⟨"Morning Ride", ⟨0, -420, "America/Los_Angeles"⟩,
    "https://www.strava.com/clubs/111/group_events/555",
    ⟨30, -420, "America/Los_Angeles"⟩⟩

def collisionEventB : ParsedEvent :=
  ⟨"Evening Ride", ⟨600, -420, "America/Los_Angeles"⟩,
    "https://www.strava.com/clubs/222/group_events/555",
    ⟨630, -420, "America/Los_Angeles"⟩⟩

/-- A calendar entry with its generation timestamp erased. -/
def icsEntryNoStamp (e : IcsEvent) :
    String × AwareDT × AwareDT × String × String × String :=
  (e.summary, e.dtstart, e.dtend, e.description, e.url, e.uid)

/-- A calendar document with the per-entry generation timestamps erased. -/
def calendarNoStamp (c : IcsCalendar) :
    String × String × String × String × String × String ×
      List (String × AwareDT × AwareDT × String × String × String) :=
  (c.prodid, c.version, c.calscale, c.icsMethod, c.calName, c.tzHint,
    c.events.map icsEntryNoStamp)

/-- A raw row whose title lacks the slash separator. -/
def badRow : RawEventTuple :=
  ⟨"Tue 6:30 AM Group Ride", "15", "Jun", "u"⟩

/-- A raw row that parses successfully. -/
def goodRow : RawEventTuple :=
  ⟨"Tue 6:30 AM / Group Ride", "15", "Jun",
    "https://www.strava.com/clubs/1/group_events/12345"⟩

/-! ## Lemmas about the title match -/

theorem dropWs1_sublist {s r : List Char} (h : dropWs1 s = some r) :
    List.Sublist r s := by
  unfold dropWs1 at h
  split at h
  · split at h
    · simp only [Option.some.injEq] at h
      subst h
      exact (List.dropWhile_sublist isSpaceChar).trans (List.sublist_cons_self _ _)
    · exact Option.noConfusion h
  · exact Option.noConfusion h

theorem splitTimeDigits_sublist {s hd md r : List Char}
    (h : splitTimeDigits s = some (hd, md, r)) : List.Sublist r s := by
  unfold splitTimeDigits at h
  split at h
  · split at h
    · split at h
      · split at h
        · simp only [Option.some.injEq, Prod.mk.injEq] at h
          rw [← h.2.2]
          exact (((List.sublist_cons_self _ _).trans (List.sublist_cons_self _ _)).trans
            (List.sublist_cons_self _ _)).trans (List.sublist_cons_self _ _)
        · exact Option.noConfusion h
      · split at h
        · simp only [Option.some.injEq, Prod.mk.injEq] at h
          rw [← h.2.2]
          exact ((((List.sublist_cons_self _ _).trans (List.sublist_cons_self _ _)).trans
            (List.sublist_cons_self _ _)).trans (List.sublist_cons_self _ _)).trans
            (List.sublist_cons_self _ _)
        · exact Option.noConfusion h
      · exact Option.noConfusion h
    · exact Option.noConfusion h
  · exact Option.noConfusion h

theorem matchName_slash {r nm : List Char} (h : matchName r = some nm) : '/' ∈ r := by
  unfold matchName at h
  split at h
  · rename_i c r7 heq
    split at h
    · rename_i hc
      subst hc
      have hmem : '/' ∈ r.dropWhile isSpaceChar := by
        rw [heq]
        exact List.mem_cons_self _ _
      exact (List.dropWhile_sublist isSpaceChar).subset hmem
    · exact Option.noConfusion h
  · exact Option.noConfusion h

theorem matchAfterDay_structure {r1 day : List Char} {g : TitleGroups}
    (h : matchAfterDay r1 day = some g) :
    '/' ∈ r1 ∧ (List.Sublist ['A', 'M'] r1 ∨ List.Sublist ['P', 'M'] r1) := by
  unfold matchAfterDay at h
  cases hdw : dropWs1 r1 with
  | none => rw [hdw] at h; exact Option.noConfusion h
  | some r2 =>
    rw [hdw] at h
    dsimp only at h
    cases hst : splitTimeDigits r2 with
    | none => rw [hst] at h; exact Option.noConfusion h
    | some trip =>
      obtain ⟨hd, md, r3⟩ := trip
      rw [hst] at h
      dsimp only at h
      cases hdw2 : dropWs1 r3 with
      | none => rw [hdw2] at h; exact Option.noConfusion h
      | some r4 =>
        rw [hdw2] at h
        dsimp only at h
        have hr41 : List.Sublist r4 r1 :=
          ((dropWs1_sublist hdw2).trans (splitTimeDigits_sublist hst)).trans
            (dropWs1_sublist hdw)
        cases r4 with
        | nil => exact Option.noConfusion h
        | cons c1 rest =>
          cases rest with
          | nil => exact Option.noConfusion h
          | cons c2 r5 =>
            dsimp only at h
            have hr51 : List.Sublist r5 r1 :=
              (((List.sublist_cons_self c2 r5).cons c1)).trans hr41
            by_cases h1 : c1 = 'A' ∧ c2 = 'M'
            · obtain ⟨rfl, rfl⟩ := h1
              rw [if_pos ⟨rfl, rfl⟩] at h
              obtain ⟨nm, hnm, -⟩ := Option.map_eq_some'.mp h
              refine ⟨hr51.subset (matchName_slash hnm), Or.inl ?_⟩
              exact (List.Sublist.cons₂ 'A' (List.Sublist.cons₂ 'M'
                (List.nil_sublist r5))).trans hr41
            · rw [if_neg h1] at h
              by_cases h2 : c1 = 'P' ∧ c2 = 'M'
              · obtain ⟨rfl, rfl⟩ := h2
                rw [if_pos ⟨rfl, rfl⟩] at h
                obtain ⟨nm, hnm, -⟩ := Option.map_eq_some'.mp h
                refine ⟨hr51.subset (matchName_slash hnm), Or.inr ?_⟩
                exact (List.Sublist.cons₂ 'P' (List.Sublist.cons₂ 'M'
                  (List.nil_sublist r5))).trans hr41
              · rw [if_neg h2] at h
                exact Option.noConfusion h

theorem matchTitle_structure {s : List Char} {g : TitleGroups}
    (h : matchTitle s = some g) :
    '/' ∈ s ∧ (List.Sublist ['A', 'M'] s ∨ List.Sublist ['P', 'M'] s) := by
  unfold matchTitle at h
  split at h
  · exact Option.noConfusion h
  · have hsub : List.Sublist (s.dropWhile isWordChar) s :=
      List.dropWhile_sublist isWordChar
    obtain ⟨h1, h2⟩ := matchAfterDay_structure h
    exact ⟨hsub.subset h1, h2.imp (·.trans hsub) (·.trans hsub)⟩

theorem takeWhile_append_cons (p : Char → Bool) (c : Char) (sfx : List Char)
    (hc : p c = false) :
    ∀ w : List Char, (∀ x ∈ w, p x = true) →
      (w ++ c :: sfx).takeWhile p = w ∧ (w ++ c :: sfx).dropWhile p = c :: sfx := by
  intro w
  induction w with
  | nil =>
    intro _
    simp [List.takeWhile_cons, List.dropWhile_cons, hc]
  | cons a w ih =>
    intro hw
    have ha : p a = true := hw a (List.mem_cons_self a w)
    have ih' := ih fun x hx => hw x (List.mem_cons_of_mem a hx)
    simp [List.takeWhile_cons, List.dropWhile_cons, ha, ih'.1, ih'.2]

theorem matchTitle_word (w sfx : List Char) (hne : w ≠ [])
    (hw : ∀ c ∈ w, isWordChar c = true) :
    matchTitle (w ++ ' ' :: sfx) = matchAfterDay (' ' :: sfx) w := by
  have h := takeWhile_append_cons isWordChar ' ' sfx (by decide) w hw
  unfold matchTitle
  rw [h.1, h.2]
  cases w with
  | nil => exact absurd rfl hne
  | cons a w' => rfl

theorem matchAfterDay_day (r : List Char) (day day' : List Char) :
    matchAfterDay r day =
      (matchAfterDay r day').map (fun g => { g with dayName := day }) := by
  unfold matchAfterDay
  cases hdw : dropWs1 r with
  | none => rfl
  | some r2 =>
    dsimp only
    cases hst : splitTimeDigits r2 with
    | none => rfl
    | some trip =>
      obtain ⟨hd, md, r3⟩ := trip
      dsimp only
      cases hdw2 : dropWs1 r3 with
      | none => rfl
      | some r4 =>
        dsimp only
        cases r4 with
        | nil => rfl
        | cons c1 rest =>
          cases rest with
          | nil => rfl
          | cons c2 r5 =>
            dsimp only
            by_cases h1 : c1 = 'A' ∧ c2 = 'M'
            · rw [if_pos h1, if_pos h1]
              cases matchName r5 <;> rfl
            · rw [if_neg h1, if_neg h1]
              by_cases h2 : c1 = 'P' ∧ c2 = 'M'
              · rw [if_pos h2, if_pos h2]
                cases matchName r5 <;> rfl
              · rw [if_neg h2, if_neg h2]
                rfl

/-! ## Claim theorems -/

/-- C1: the date is first resolved with the current calendar year; a parse
failure there is a parse failure of the event; a result more than 60 days
before `reference_now` is re-resolved with the next year, and nothing
further is applied to it.  With reference time Dec 20, 2025 a "5 Jan"
listing resolves to Jan 5, 2026; with reference time Jun 1, 2025 a
"15 Jun" listing resolves to Jun 15, 2025. -/
theorem C1_year_inference :
    (∀ (dateText monthText : String) (now : NaiveDT),
        strptime_d_b_Y (composeDateInput dateText monthText now.year) = none →
        resolveEventDate dateText monthText now = none) ∧
    (∀ (dateText monthText : String) (now : NaiveDT) (d : DateYMD),
        strptime_d_b_Y (composeDateInput dateText monthText now.year) = some d →
        ¬ naiveMinutes ⟨d.year, d.month, d.day, 0⟩ < naiveMinutes now - 60 * 1440 →
        resolveEventDate dateText monthText now = some d) ∧
    (∀ (dateText monthText : String) (now : NaiveDT) (d : DateYMD),
        strptime_d_b_Y (composeDateInput dateText monthText now.year) = some d →
        naiveMinutes ⟨d.year, d.month, d.day, 0⟩ < naiveMinutes now - 60 * 1440 →
        resolveEventDate dateText monthText now =
          strptime_d_b_Y (composeDateInput dateText monthText (now.year + 1))) ∧
    resolveEventDate "5" "Jan" ⟨2025, 12, 20, 0⟩ = some ⟨2026, 1, 5⟩ ∧
    resolveEventDate "15" "Jun" ⟨2025, 6, 1, 0⟩ = some ⟨2025, 6, 15⟩ := by
  refine ⟨?_, ?_, ?_, by decide, by decide⟩
  · intro dT mT now h
    unfold resolveEventDate
    rw [h]
  · intro dT mT now d h h2
    unfold resolveEventDate
    rw [h]
    dsimp only
    rw [if_neg h2]
  · intro dT mT now d h h2
    unfold resolveEventDate
    rw [h]
    dsimp only
    rw [if_pos h2]

theorem C1_witness :
    resolveEventDate "15" "Jun" ⟨2025, 6, 1, 0⟩ = some ⟨2025, 6, 15⟩ :=
  C1_year_inference.2.1 "15" "Jun" ⟨2025, 6, 1, 0⟩ ⟨2025, 6, 15⟩ (by decide) (by decide)

/-- C2: every successfully parsed event satisfies
`display_time - start_time = 30` minutes (as instants and as wall-clock
values), and both timestamps carry the fixed target timezone with one and
the same UTC offset. -/
theorem C2_display_offset :
    ∀ (t d m u : String) (now : NaiveDT) (ev : ParsedEvent),
      parse_event_details t d m u now = some ev →
      instantMin ev.original_time - instantMin ev.datetime = 30 ∧
      ev.original_time.wallMin - ev.datetime.wallMin = 30 ∧
      ev.original_time.tz = "America/Los_Angeles" ∧
      ev.datetime.tz = "America/Los_Angeles" ∧
      ev.original_time.offMin = ev.datetime.offMin := by
  intro t d m u now ev h
  unfold parse_event_details at h
  split at h
  · exact Option.noConfusion h
  split at h
  · exact Option.noConfusion h
  split at h
  · exact Option.noConfusion h
  simp only [Option.some.injEq] at h
  subst h
  refine ⟨?_, ?_, rfl, rfl, ?_⟩ <;>
    simp [instantMin, awareAddMin, pacific_localize]

theorem C2_witness :
    instantMin sampleParsedEvent.original_time -
        instantMin sampleParsedEvent.datetime = 30 ∧
    sampleParsedEvent.original_time.wallMin -
        sampleParsedEvent.datetime.wallMin = 30 ∧
    sampleParsedEvent.original_time.tz = "America/Los_Angeles" ∧
    sampleParsedEvent.datetime.tz = "America/Los_Angeles" ∧
    sampleParsedEvent.original_time.offMin = sampleParsedEvent.datetime.offMin :=
  C2_display_offset "Tue 6:30 AM / Group Ride" "15" "Jun"
    "https://www.strava.com/clubs/1/group_events/12345" ⟨2025, 6, 1, 0⟩
    sampleParsedEvent (by decide)

/-- C3: the date-range filter keeps an event exactly when
`reference_now <= start_time <= reference_now + 4 weeks`, both bounds
inclusive; concretely, with reference instant `T` an event at `T + 3`
weeks is kept while events at `T + 5` weeks and at `T - 1` day are
dropped. -/
theorem C3_filter_window :
    (∀ (events : List ParsedEvent) (now : AwareDT) (e : ParsedEvent),
        e ∈ filter_events_by_date_range events now ↔
          e ∈ events ∧ instantMin now ≤ instantMin e.datetime ∧
            instantMin e.datetime ≤ instantMin now + 4 * 7 * 24 * 60) ∧
    filter_events_by_date_range
        [⟨"three weeks out", ⟨30240, -420, "America/Los_Angeles"⟩, "u3",
            ⟨30270, -420, "America/Los_Angeles"⟩⟩,
          ⟨"five weeks out", ⟨50400, -420, "America/Los_Angeles"⟩, "u5",
            ⟨50430, -420, "America/Los_Angeles"⟩⟩,
          ⟨"one day ago", ⟨-1440, -420, "America/Los_Angeles"⟩, "uy",
            ⟨-1410, -420, "America/Los_Angeles"⟩⟩]
        ⟨0, -420, "America/Los_Angeles"⟩ =
      [⟨"three weeks out", ⟨30240, -420, "America/Los_Angeles"⟩, "u3",
          ⟨30270, -420, "America/Los_Angeles"⟩⟩] := by
  constructor
  · intro events now e
    simp only [filter_events_by_date_range, List.mem_filter, awareLE, awareAddMin,
      instantMin, Bool.and_eq_true, decide_eq_true_eq]
    constructor
    · rintro ⟨h1, h2, h3⟩
      exact ⟨h1, by omega, by omega⟩
    · rintro ⟨h1, h2, h3⟩
      exact ⟨h1, by omega, by omega⟩
  · decide

theorem C3_witness :
    (⟨"three weeks out", ⟨30240, -420, "America/Los_Angeles"⟩, "u3",
        ⟨30270, -420, "America/Los_Angeles"⟩⟩ : ParsedEvent) ∈
      filter_events_by_date_range
        [⟨"three weeks out", ⟨30240, -420, "America/Los_Angeles"⟩, "u3",
            ⟨30270, -420, "America/Los_Angeles"⟩⟩]
        ⟨0, -420, "America/Los_Angeles"⟩ :=
  (C3_filter_window.1 _ ⟨0, -420, "America/Los_Angeles"⟩ _).mpr
    ⟨by decide, by decide, by decide⟩

/-- C5: the entry identifier is the last path segment of the event URL
followed by the fixed suffix `@strava-scraper`, independently of the
generation timestamp, so re-assembling the same events at a different
time yields the same identifiers. -/
theorem C5_uid_idempotent :
    ∀ (events : List ParsedEvent) (stamp1 stamp2 : Int),
      (generate_ics_calendar events stamp1).events.map IcsEvent.uid =
        (generate_ics_calendar events stamp2).events.map IcsEvent.uid ∧
      (generate_ics_calendar events stamp1).events.map IcsEvent.uid =
        events.map (fun e => lastPathSegment e.url ++ "@strava-scraper") := by
  intro events s1 s2
  constructor <;> simp [generate_ics_calendar, icsEntryOf, Function.comp]

/-- C6 (counterexample): `parse_event_details` does not take
`reference_now` as a parameter; it reads the wall clock internally, and
two runs with identical scraper arguments at different wall-clock times
return different results. -/
theorem C6_wall_clock_dependence :
    parse_event_details "Tue 6:30 AM / Group Ride" "5" "Jan"
        "https://www.strava.com/clubs/x" ⟨2025, 2, 1, 0⟩ ≠
      parse_event_details "Tue 6:30 AM / Group Ride" "5" "Jan"
        "https://www.strava.com/clubs/x" ⟨2025, 12, 20, 0⟩ := by
  decide

/-- C6 (amended): with the internal wall-clock readings modelled as
explicit inputs, the core is deterministic: equal clock readings give
equal parse and filter results, and for a fixed event list the assembled
document is independent of the generation time except for the per-entry
generation timestamp field. -/
theorem C6_deterministic_given_clock :
    (∀ (t d m u : String) (now1 now2 : NaiveDT), now1 = now2 →
        parse_event_details t d m u now1 = parse_event_details t d m u now2) ∧
    (∀ (events : List ParsedEvent) (now1 now2 : AwareDT), now1 = now2 →
        filter_events_by_date_range events now1 =
          filter_events_by_date_range events now2) ∧
    (∀ (events : List ParsedEvent) (stamp1 stamp2 : Int),
        calendarNoStamp (generate_ics_calendar events stamp1) =
          calendarNoStamp (generate_ics_calendar events stamp2)) := by
  refine ⟨?_, ?_, ?_⟩
  · intro t d m u now1 now2 h
    rw [h]
  · intro events now1 now2 h
    rw [h]
  · intro events s1 s2
    simp [calendarNoStamp, generate_ics_calendar, icsEntryOf, icsEntryNoStamp,
      Function.comp]

theorem C6_witness :
    parse_event_details "Tue 6:30 AM / Group Ride" "15" "Jun" "u" ⟨2025, 6, 1, 0⟩ =
      parse_event_details "Tue 6:30 AM / Group Ride" "15" "Jun" "u" ⟨2025, 6, 1, 0⟩ :=
  C6_deterministic_given_clock.1 "Tue 6:30 AM / Group Ride" "15" "Jun" "u"
    ⟨2025, 6, 1, 0⟩ ⟨2025, 6, 1, 0⟩ rfl

/-- C8: assembling an empty event list produces the well-formed document
that carries exactly the fixed document-level metadata and no entries. -/
theorem C8_empty_calendar :
    ∀ stamp : Int,
      generate_ics_calendar [] stamp =
        { prodid := "-//Strava Club Events//mxm.dk//", version := "2.0",
          calscale := "GREGORIAN", icsMethod := "PUBLISH",
          calName := "Strava Club Events", tzHint := "America/Los_Angeles",
          events := [] } := by
  intro stamp
  rfl

/-- C4: a successful parse requires the slash separator and an AM/PM
token in the title (so titles missing them fail), concrete malformed
titles, dates and times yield the failure value `none` rather than an
exception, and a failing row leaves the batch result of the remaining
rows unchanged. -/
theorem C4_failure_isolation :
    (∀ (t d m u : String) (now : NaiveDT) (ev : ParsedEvent),
        parse_event_details t d m u now = some ev →
        '/' ∈ t.data ∧
          (List.Sublist ['A', 'M'] t.data ∨ List.Sublist ['P', 'M'] t.data)) ∧
    parse_event_details "Tue 6:30 AM Group Ride" "15" "Jun" "u" ⟨2025, 6, 1, 0⟩ = none ∧
    parse_event_details "Tue 6:30 / Group Ride" "15" "Jun" "u" ⟨2025, 6, 1, 0⟩ = none ∧
    parse_event_details "Tue 6:30 AM - Group Ride" "15" "Jun" "u" ⟨2025, 6, 1, 0⟩ = none ∧
    parse_event_details "Tue 6:30 AM / Group Ride" "32" "Jun" "u" ⟨2025, 6, 1, 0⟩ = none ∧
    parse_event_details "Tue 13:30 AM / Group Ride" "15" "Jun" "u" ⟨2025, 6, 1, 0⟩ = none ∧
    (∀ (r : RawEventTuple) (rows : List RawEventTuple) (now : NaiveDT),
        parse_event_details r.title_text r.date_text r.month_text r.url now = none →
        scrape_club_events (r :: rows) now = scrape_club_events rows now) := by
  refine ⟨?_, by decide, by decide, by decide, by decide, by decide, ?_⟩
  · intro t d m u now ev h
    unfold parse_event_details at h
    split at h
    · exact Option.noConfusion h
    · rename_i g heq
      exact matchTitle_structure heq
  · intro r rows now h
    simp [scrape_club_events, List.filterMap_cons, h]

theorem C4_witness :
    scrape_club_events [badRow, goodRow] ⟨2025, 6, 1, 0⟩ =
      scrape_club_events [goodRow] ⟨2025, 6, 1, 0⟩ :=
  C4_failure_isolation.2.2.2.2.2.2 badRow [goodRow] ⟨2025, 6, 1, 0⟩ (by decide)

/-- C7: every serialized calendar entry takes its start from the event's
`start_time`, its end 30 minutes later, its title from the event name, and
its description is the composed string embedding the source URL and the
formatted `display_time` ride time. -/
theorem C7_entry_fields :
    ∀ (events : List ParsedEvent) (stamp : Int) (i : Nat) (ev : ParsedEvent)
      (entry : IcsEvent),
      events[i]? = some ev →
      (generate_ics_calendar events stamp).events[i]? = some entry →
      entry.summary = ev.name ∧
      entry.dtstart = ev.datetime ∧
      entry.dtend = awareAddMin ev.datetime 30 ∧
      instantMin entry.dtend = instantMin entry.dtstart + 30 ∧
      entry.description =
        "Strava Event: " ++ ev.url ++ "\nRide starts at: " ++
          strftime_IMp ev.original_time ∧
      (∃ l r, entry.description.data = l ++ ev.url.data ++ r) := by
  intro events stamp i ev entry h1 h2
  simp only [generate_ics_calendar, List.getElem?_map, h1, Option.map_some',
    Option.some.injEq] at h2
  subst h2
  refine ⟨rfl, rfl, rfl, ?_, rfl, ?_⟩
  · simp [icsEntryOf, instantMin, awareAddMin]
    omega
  · refine ⟨"Strava Event: ".data,
      ("\nRide starts at: " ++ strftime_IMp ev.original_time).data, ?_⟩
    simp [icsEntryOf, String.data_append, List.append_assoc]

theorem C7_witness :
    (icsEntryOf sampleParsedEvent 99).summary = sampleParsedEvent.name ∧
    (icsEntryOf sampleParsedEvent 99).dtstart = sampleParsedEvent.datetime ∧
    (icsEntryOf sampleParsedEvent 99).dtend = awareAddMin sampleParsedEvent.datetime 30 ∧
    instantMin (icsEntryOf sampleParsedEvent 99).dtend =
      instantMin (icsEntryOf sampleParsedEvent 99).dtstart + 30 ∧
    (icsEntryOf sampleParsedEvent 99).description =
      "Strava Event: " ++ sampleParsedEvent.url ++ "\nRide starts at: " ++
        strftime_IMp sampleParsedEvent.original_time ∧
    (∃ l r, (icsEntryOf sampleParsedEvent 99).description.data =
      l ++ sampleParsedEvent.url.data ++ r) :=
  C7_entry_fields [sampleParsedEvent] 99 0 sampleParsedEvent
    (icsEntryOf sampleParsedEvent 99) rfl rfl

/-- C9: the day-of-week token of the title is never checked against the
resolved date: replacing it with any other nonempty word yields the very
same parse result, and a title whose day token is not a day abbreviation
at all still parses successfully. -/
theorem C9_day_token_unchecked :
    (∀ (w w' sfx : List Char) (d m u : String) (now : NaiveDT),
        w ≠ [] → w' ≠ [] →
        (∀ c ∈ w, isWordChar c = true) → (∀ c ∈ w', isWordChar c = true) →
        parse_event_details (String.mk (w ++ ' ' :: sfx)) d m u now =
          parse_event_details (String.mk (w' ++ ' ' :: sfx)) d m u now) ∧
    (parse_event_details "Octopus 6:30 AM / Group Ride" "15" "Jun" "u"
        ⟨2025, 6, 1, 0⟩).isSome = true := by
  constructor
  · intro w w' sfx d m u now hne hne' hw hw'
    unfold parse_event_details
    rw [mk_data, mk_data, matchTitle_word w sfx hne hw, matchTitle_word w' sfx hne' hw',
      matchAfterDay_day (' ' :: sfx) w w']
    cases matchAfterDay (' ' :: sfx) w' with
    | none => rfl
    | some g => rfl
  · decide

theorem C9_witness :
    parse_event_details
        (String.mk (['Z', 'e', 'b', 'r', 'a'] ++ ' ' :: "6:30 AM / Group Ride".data))
        "15" "Jun" "u" ⟨2025, 6, 1, 0⟩ =
      parse_event_details
        (String.mk (['T', 'u', 'e'] ++ ' ' :: "6:30 AM / Group Ride".data))
        "15" "Jun" "u" ⟨2025, 6, 1, 0⟩ :=
  C9_day_token_unchecked.1 ['Z', 'e', 'b', 'r', 'a'] ['T', 'u', 'e']
    "6:30 AM / Group Ride".data "15" "Jun" "u" ⟨2025, 6, 1, 0⟩
    (by decide) (by decide) (by decide) (by decide)

/-- C10: the identifier derivation keeps only the substring after the
final slash of the URL, so two distinct events whose URLs share a last
path segment receive the same identifier, and a URL ending in a slash
yields the empty segment. -/
theorem C10_uid_collision :
    collisionEventA.url ≠ collisionEventB.url ∧
    collisionEventA ≠ collisionEventB ∧
    (generate_ics_calendar [collisionEventA, collisionEventB] 0).events.map
        IcsEvent.uid = ["555@strava-scraper", "555@strava-scraper"] ∧
    lastPathSegment "https://www.strava.com/clubs/111/group_events/" = "" := by
  refine ⟨by decide, by decide, by decide, by decide⟩

end StravaScraper
